import Mathlib

/-!
Verification of the replication/synchronization layer of `y-storage.mjs`
(a localStorage-like key-value API backed by a replicated data engine and a
peer-to-peer transport).

The source file is shallowly embedded below. Pure functions of the source
(`toU8`, `snapshot`, the `map.observe` differ, the storage facade operations,
the configuration check of `createYStorage`, the peer-join / `sync1` / `sync2`
/ `upd` handlers) are translated directly. The replicated data engine (Yjs)
and the transport (Trystero) are external packages; where a claim depends on
their behaviour, the corresponding definition is modelled from the
specification's capability contract and is marked `Modelled from the spec:`
in its doc comment.
-/

namespace YStorage

/-- JavaScript values, as far as the facade's `String(...)` coercions care:
strings, numbers, booleans, `null` and `undefined`. -/
inductive JSVal : Type where
  | str (s : String)
  | num (n : Int)
  | boolean (b : Bool)
  | nul
  | undef
deriving DecidableEq, Repr

/-- The JavaScript `String(v)` coercion used by `setItem` / `getItem` /
`snapshot`. -/
def JSVal.toStr : JSVal → String
  | .str s => s
  | .num n => toString n
  | .boolean b => if b then "true" else "false"
  | .nul => "null"
  | .undef => "undefined"

/-- The replicated map (`doc.getMap(name)`): an insertion-ordered association
list with unique keys, the shape of a JS `Map` / `Y.Map`. -/
abbrev YMap := List (String × JSVal)

/-- A materialized snapshot (`snapshot(map)` result): string keys to
string-coerced values. -/
abbrev Snap := List (String × String)

/-- `map.get(k)`: the value stored under `k`, or none (`undefined`). -/
def mapGet (m : YMap) (k : String) : Option JSVal :=
  (m.find? (fun p => p.1 == k)).map Prod.snd

/-- `map.set(k, v)`: replace the entry for `k` in place if present, else
append it (JS `Map` insertion-order semantics). -/
def mapSet : YMap → String → JSVal → YMap
  | [], k, v => [(k, v)]
  | (k', v') :: rest, k, v =>
    if k' == k then (k, v) :: rest else (k', v') :: mapSet rest k v

/-- `map.delete(k)`: remove the (unique) entry for `k` if present. -/
def mapDelete : YMap → String → YMap
  | [], _ => []
  | (k', v') :: rest, k =>
    if k' == k then rest else (k', v') :: mapDelete rest k

/-- `map.clear()`. -/
def mapClear (_ : YMap) : YMap := []

/-- `snapshot(map)`: `map.forEach((v, k) => m.set(k, String(v)))` — the
current contents with values coerced to strings. -/
def snapshot (m : YMap) : Snap :=
  m.map (fun p => (p.1, p.2.toStr))

/-- The `detail` of a dispatched `storage` event: `{key, oldValue, newValue}`
with `none` standing for JS `null`. -/
structure ChangeEvent where
  key : String
  oldValue : Option String
  newValue : Option String
deriving DecidableEq, Repr

/-- `snap.has(k)` on a snapshot. -/
def snapHas (s : Snap) (k : String) : Bool :=
  s.any (fun p => p.1 == k)

/-- `snap.get(k)` on a snapshot. -/
def snapGet (s : Snap) (k : String) : Option String :=
  (s.find? (fun p => p.1 == k)).map Prod.snd

/-- `snap.has(k) ? snap.get(k) : null` — the old value looked up while
diffing. -/
def oldValueFor (snap : Snap) (k : String) : Option String :=
  if snapHas snap k then snapGet snap k else none

/-- The changed/added loop of the `map.observe` callback: for each entry of
the new snapshot, dispatch `{key, oldValue, newValue}` when
`oldValue !== newValue` (with `oldValue` null when the key is absent from the
old snapshot). -/
def addedChangedEvents (snap next : Snap) : List ChangeEvent :=
  next.filterMap (fun p =>
    if oldValueFor snap p.1 = some p.2 then none
    else some ⟨p.1, oldValueFor snap p.1, some p.2⟩)

/-- The removed loop of the `map.observe` callback: for each entry of the old
snapshot whose key is absent from the new one, dispatch
`{key, oldValue, newValue: null}`. -/
def removedEvents (snap next : Snap) : List ChangeEvent :=
  snap.filterMap (fun p =>
    if snapHas next p.1 then none else some ⟨p.1, some p.2, none⟩)

/-- All events dispatched by one firing of the `map.observe` callback, in
dispatch order. -/
def observeEvents (snap next : Snap) : List ChangeEvent :=
  addedChangedEvents snap next ++ removedEvents snap next

/-- The state of one `createYStorage` instance: the replicated map (`map` of
the Yjs doc), the retained snapshot (`snap`), the configured advisory
`maxPeers` ceiling, and whether `destroy()` has run. -/
structure YState where
  doc : YMap
  snap : Snap
  maxPeers : Option Nat
  destroyed : Bool
deriving DecidableEq, Repr

/-- One firing of the `map.observe` callback on the instance: compute the
fresh snapshot, dispatch the diff events, retain the new snapshot.
Modelled from the spec: `destroy()` detaches the engine's observers
(shutdown "must prevent any further outbound sends and detach event
observers"), so a destroyed instance dispatches nothing. -/
def fireObserver (st : YState) : YState × List ChangeEvent :=
  if st.destroyed then (st, [])
  else
    let next := snapshot st.doc
    ({ st with snap := next }, observeEvents st.snap next)

/-- `getItem(key)`: `map.get(String(key))`, `null` if `undefined`, else
`String(v)`. -/
def getItem (st : YState) (k : JSVal) : Option String :=
  match mapGet st.doc k.toStr with
  | none => none
  | some v => some v.toStr

/-- `setItem(key, value)`: `map.set(String(key), String(value))`; the engine
mutation fires the `map.observe` callback once. -/
def setItem (st : YState) (k v : JSVal) : YState × List ChangeEvent :=
  fireObserver { st with doc := mapSet st.doc k.toStr (.str v.toStr) }

/-- `removeItem(key)`: `map.delete(String(key))`; fires the observer once. -/
def removeItem (st : YState) (k : JSVal) : YState × List ChangeEvent :=
  fireObserver { st with doc := mapDelete st.doc k.toStr }

/-- `clear()`: `map.clear()`; fires the observer once. -/
def clear (st : YState) : YState × List ChangeEvent :=
  fireObserver { st with doc := mapClear st.doc }

/-- `length`: `map.size`. -/
def length (st : YState) : Nat := st.doc.length

/-- `key(n)`: `Array.from(map.keys())[n] ?? null`. -/
def keyAt (st : YState) (n : Nat) : Option String :=
  (st.doc.map Prod.fst)[n]?

/-! ### The replicated data engine (modelled from the spec)

Yjs is an external package, not under the repository's sources. The three
operations the controller consumes (`Y.encodeStateVector`,
`Y.encodeStateAsUpdate`, `Y.applyUpdate`) are modelled from the spec's
capability contract: a Summary is "a compact encoding of everything this peer
currently has", a Diff is "the operations a peer is missing" computed from a
Summary, and applying a Diff merges the missing entries into the replica. -/

/-- Modelled from the spec: `Y.encodeStateVector(doc)` — the State Summary,
"an opaque, compact encoding of everything this peer currently has".
Abstracted as the current contents; `encodeStateAsUpdate` consults only its
key set. -/
def encodeStateVector (doc : YMap) : YMap := doc

/-- Modelled from the spec: `Y.encodeStateAsUpdate(doc, sv)` — the Diff,
"the operations a peer is missing": the local entries not covered by the
remote Summary, at key granularity (conflict resolution between concurrent
writes to one key is the engine's private business and out of scope). -/
def encodeStateAsUpdate (doc : YMap) (sv : YMap) : YMap :=
  doc.filter (fun p => !(sv.any (fun q => q.1 == p.1)))

/-- Modelled from the spec: `Y.applyUpdate(doc, update)` — merge the entries
of the Diff that the replica is missing; applying an already-known entry is a
no-op (idempotent, order-insensitive per the convergence invariant). -/
def applyUpdate (doc : YMap) (update : YMap) : YMap :=
  update.foldl
    (fun d p => if d.any (fun q => q.1 == p.1) then d else mapSet d p.1 p.2)
    doc

/-! ### Binary payload normalization (`toU8`) and the message handlers -/

/-- A binary payload as delivered by the transport: the three container
shapes `toU8` recognizes (a `Uint8Array`, a raw `ArrayBuffer`, an object
with a `.buffer` that is an `ArrayBuffer`), each carrying decoded engine
data, or an unrecognized binary type. -/
inductive BinPayload : Type where
  | uint8Array (data : YMap)
  | arrayBuffer (data : YMap)
  | bufferField (data : YMap)
  | unrecognized
deriving DecidableEq, Repr

/-- `toU8(x)`: return the byte view for the three recognized container
shapes, otherwise `throw new Error("Unexpected binary type")`. -/
def toU8 : BinPayload → Except String YMap
  | .uint8Array d => .ok d
  | .arrayBuffer d => .ok d
  | .bufferField d => .ok d
  | .unrecognized => .error "Unexpected binary type"

/-- The three named action channels: `yjs:sync1` (sync-request, carries a
State Summary), `yjs:sync2` (sync-response, carries a Diff), `yjs:upd`
(update, carries a Diff). -/
inductive Channel : Type where
  | sync1
  | sync2
  | upd
deriving DecidableEq, Repr

/-- A message emitted by this peer: `sendX(payload, peerId)` addressed to one
peer, or `sendUpd(update)` broadcast to all peers. -/
inductive Sent : Type where
  | toPeer (ch : Channel) (payload : YMap) (peerId : String)
  | broadcastAll (ch : Channel) (payload : YMap)
deriving DecidableEq, Repr

/-- The channel a sent message goes out on. -/
def Sent.channel : Sent → Channel
  | .toPeer ch _ _ => ch
  | .broadcastAll ch _ => ch

/-- JS truthiness of the optional numeric `maxPeers` option: `undefined` and
`0` are falsy. -/
def truthyNum : Option Nat → Bool
  | none => false
  | some n => n != 0

/-- The `room.onPeerJoin` handler: if `maxPeers` is truthy and
`room.getPeers().length > maxPeers`, return without sending; otherwise send
the local state vector to the joining peer via `sync1`. `peersNow` is what
`room.getPeers()` returns at the moment the handler runs. -/
def onPeerJoin (st : YState) (peerId : String) (peersNow : List String) :
    List Sent :=
  if truthyNum st.maxPeers && decide (peersNow.length > st.maxPeers.getD 0)
  then []
  else [Sent.toPeer Channel.sync1 (encodeStateVector st.doc) peerId]

/-- Applying an incoming Diff (`onSync2` / `onUpd` body after `toU8`):
`Y.applyUpdate(doc, u)`; if the doc changed, the `doc.on("update")` hook
rebroadcasts the incremental update via `upd` and the `map.observe` callback
fires. Modelled from the spec where the engine's hooks are concerned: the
engine fires its mutation hook exactly when applying the Diff changed the
replica, and `destroy()` detaches the `update` hook. -/
def applyIncoming (st : YState) (u : YMap) :
    YState × List Sent × List ChangeEvent :=
  let doc' := applyUpdate st.doc u
  let sends :=
    if st.destroyed || decide (doc' = st.doc) then []
    else [Sent.broadcastAll Channel.upd u]
  let fired := fireObserver { st with doc := doc' }
  (fired.1, sends, fired.2)

/-- The handler body run for one received message on one of the three
channels: `onSync1` decodes the state vector, computes the Diff the sender
misses and sends it back via `sync2`; `onSync2` and `onUpd` decode the Diff
and apply it. A `toU8` failure aborts the handler with the thrown error. -/
def handleMessage (st : YState) (ch : Channel) (payload : BinPayload)
    (peerId : String) : Except String (YState × List Sent × List ChangeEvent) :=
  match ch with
  | .sync1 =>
    match toU8 payload with
    | .error e => .error e
    | .ok sv =>
      let diff := encodeStateAsUpdate st.doc sv
      .ok (st, [Sent.toPeer Channel.sync2 diff peerId], [])
  | .sync2 =>
    match toU8 payload with
    | .error e => .error e
    | .ok u => .ok (applyIncoming st u)
  | .upd =>
    match toU8 payload with
    | .error e => .error e
    | .ok u => .ok (applyIncoming st u)

/-- Modelled from the spec: delivery of one received message by the
single-threaded host event loop. An error thrown by a handler is "a
fatal-to-that-message error": it aborts the processing of that single
message, is logged/dropped by the host, and "must not crash the controller or
affect unrelated peers/messages" — so the instance state is left exactly as
it was and the loop keeps running. -/
def deliver (st : YState) (ch : Channel) (payload : BinPayload)
    (peerId : String) : YState :=
  match handleMessage st ch payload peerId with
  | .ok r => r.1
  | .error _ => st

/-- The messages a successful handler run emitted (an aborted run emitted
none). -/
def deliverSends (st : YState) (ch : Channel) (payload : BinPayload)
    (peerId : String) : List Sent :=
  match handleMessage st ch payload peerId with
  | .ok r => r.2.1
  | .error _ => []

/-- An external event driving the controller: a peer-join notification (with
what `room.getPeers()` returns at that moment), a received message on one of
the three channels, or a local facade mutation. -/
inductive PEvent : Type where
  | peerJoin (peerId : String) (peersNow : List String)
  | message (ch : Channel) (payload : BinPayload) (peerId : String)
  | localSetItem (k v : JSVal)
  | localRemoveItem (k : JSVal)
deriving DecidableEq, Repr

/-- One step of the event-driven controller: the state after the event and
every message the handlers sent while processing it. Local mutations fire
`doc.on("update")`, which broadcasts the incremental update via `upd`
(detached after `destroy()`; a delete of an absent key changes nothing and
fires no update). -/
def step (st : YState) (ev : PEvent) : YState × List Sent :=
  match ev with
  | .peerJoin pid peersNow => (st, onPeerJoin st pid peersNow)
  | .message ch payload pid =>
    (deliver st ch payload pid, deliverSends st ch payload pid)
  | .localSetItem k v =>
    ((setItem st k v).1,
      if st.destroyed then []
      else [Sent.broadcastAll Channel.upd [(k.toStr, .str v.toStr)]])
  | .localRemoveItem k =>
    ((removeItem st k).1,
      if st.destroyed || decide (mapDelete st.doc k.toStr = st.doc) then []
      else [Sent.broadcastAll Channel.upd []])

/-! ### Construction and teardown -/

/-- The options object accepted by `createYStorage({...})`; absent options
are `none` (`undefined`). -/
structure YConfig where
  appId : Option String
  roomId : Option String
  relayUrls : Option (List String)
  password : Option String
  name : String
  maxPeers : Option Nat
deriving DecidableEq, Repr

/-- JS truthiness of an optional string option: `undefined` and the empty
string are falsy. -/
def truthyStr : Option String → Bool
  | none => false
  | some s => !(s == "")

/-- `createYStorage`: `if (!appId) throw`, `if (!roomId) throw`; otherwise
construction proceeds — a fresh doc and map, the initial (empty) retained
snapshot, the room joined and the handlers wired. -/
def createYStorage (cfg : YConfig) : Except String YState :=
  if !truthyStr cfg.appId then
    .error "createYStorage: appId is required"
  else if !truthyStr cfg.roomId then
    .error "createYStorage: roomId is required"
  else
    .ok { doc := [], snap := snapshot [], maxPeers := cfg.maxPeers,
          destroyed := false }

/-- The `try { ... } catch {}` pattern of `destroy()`: the result of the
wrapped external call, whatever it is, is swallowed. -/
def trySwallow (r : Except String Unit) : Unit :=
  match r with
  | .ok _ => ()
  | .error _ => ()

/-- `destroy()`: `try { room.leave() } catch {}` then
`try { doc.destroy() } catch {}`. The results of the two external calls are
passed in as arguments; both are swallowed, so `destroy` itself never
throws. Destroying the doc detaches its observers, making the instance
inert. -/
def destroy (leaveResult docDestroyResult : Except String Unit)
    (st : YState) : Except String YState :=
  let _ := trySwallow leaveResult
  let _ := trySwallow docDestroyResult
  .ok { st with destroyed := true }

/-! ### Facade operation traces (for the get/set/remove algebra) -/

/-- One synchronous facade mutation. -/
inductive SOp : Type where
  | set (k v : JSVal)
  | remove (k : JSVal)
  | clearOp
deriving DecidableEq, Repr

/-- Run one facade mutation (discarding the dispatched events). -/
def stepOp (st : YState) (op : SOp) : YState :=
  match op with
  | .set k v => (setItem st k v).1
  | .remove k => (removeItem st k).1
  | .clearOp => (clear st).1

/-- Run a sequence of facade mutations from a given state. -/
def runFrom (st : YState) (ops : List SOp) : YState :=
  ops.foldl stepOp st

/-- A freshly constructed instance: empty doc, empty retained snapshot. -/
def initialState : YState :=
  { doc := [], snap := snapshot [], maxPeers := none, destroyed := false }

/-- Run a sequence of facade mutations on a fresh instance. -/
def runOps (ops : List SOp) : YState :=
  runFrom initialState ops

/-- The last write a mutation sequence performs on (coerced) key `k`:
`none` when no mutation in the sequence touches `k`, `some (some s)` when the
last one is a set storing `s`, `some none` when the last one is a remove or a
clear. -/
def lastWrite : List SOp → String → Option (Option String)
  | [], _ => none
  | op :: ops, k =>
    match lastWrite ops k with
    | some r => some r
    | none =>
      match op with
      | .set k' v => if k'.toStr == k then some (some v.toStr) else none
      | .remove k' => if k'.toStr == k then some none else none
      | .clearOp => some none

/-- The keys of the replicated map are pairwise distinct (true of every JS
`Map`, hence of every reachable instance state). -/
def keysNodup (m : YMap) : Prop :=
  (m.map Prod.fst).Nodup

/-- The stored value determined by a `lastWrite` verdict: the recorded string
for a set, nothing for a remove/clear, the prior lookup result when the
sequence never touches the key. -/
def lastWriteVal : Option (Option String) → Option JSVal → Option JSVal
  | some (some s), _ => some (JSVal.str s)
  | some none, _ => none
  | none, prior => prior

/-! ### Concrete scenario constants used by the claim theorems -/

/-- Peer A of the round-trip handshake scenario: its map holds exactly
`{x: "1"}` and its retained snapshot agrees. -/
def handshakePeerA : YState :=
  { doc := [("x", .str "1")], snap := [("x", "1")], maxPeers := none,
    destroyed := false }

/-- Peer B of the round-trip handshake scenario: newly joined, empty map. -/
def handshakePeerB : YState :=
  { doc := [], snap := [], maxPeers := none, destroyed := false }

/-- The state and events after `setItem("a","1")` on a fresh instance. -/
def c3AfterSet1 : YState × List ChangeEvent :=
  setItem initialState (.str "a") (.str "1")

/-- The state and events after the subsequent `setItem("a","2")`. -/
def c3AfterSet2 : YState × List ChangeEvent :=
  setItem c3AfterSet1.1 (.str "a") (.str "2")

/-- The state and events after the final `removeItem("a")`. -/
def c3AfterRemove : YState × List ChangeEvent :=
  removeItem c3AfterSet2.1 (.str "a")

/-- A peer configured with the advisory ceiling 1. -/
def cappedPeer : YState :=
  { doc := [], snap := [], maxPeers := some 1, destroyed := false }

/-- A peer configured with ceiling 0. -/
def zeroCapPeer : YState :=
  { doc := [], snap := [], maxPeers := some 0, destroyed := false }

/-- A config with `appId` missing. -/
def cfgMissingAppId : YConfig :=
  { appId := none, roomId := some "room", relayUrls := none, password := none,
    name := "ystorage", maxPeers := none }

/-- A config with `roomId` missing. -/
def cfgMissingRoomId : YConfig :=
  { appId := some "app", roomId := none, relayUrls := none, password := none,
    name := "ystorage", maxPeers := none }

/-- A config with both identifiers present. -/
def cfgComplete : YConfig :=
  { appId := some "app", roomId := some "room", relayUrls := none,
    password := none, name := "ystorage", maxPeers := none }

/-- A destroyed instance holding one key. -/
def destroyedPeer : YState :=
  { doc := [("a", .str "1")], snap := [("a", "1")], maxPeers := none,
    destroyed := true }

/-- An instance whose map gained key `a` since its retained snapshot; its
observer fires the event `{a, null, "1"}`. -/
def pendingAddPeer : YState :=
  { doc := [("a", .str "1")], snap := [], maxPeers := none,
    destroyed := false }

/-! ## Claim theorems -/

/-- C1: a received message on any of the three channels whose binary payload
is not a recognized binary encoding makes the handler throw, which aborts
processing of that single message: the handler emits nothing, and delivery
leaves the instance state — the replicated map and the retained snapshot —
exactly unchanged; the error stays local to that message (the event loop
drops it) and never reaches the facade's caller. -/
theorem c1_decode_error_aborts_and_preserves_state (st : YState)
    (ch : Channel) (payload : BinPayload) (pid msg : String)
    (h : toU8 payload = .error msg) :
    handleMessage st ch payload pid = .error msg ∧
    deliver st ch payload pid = st ∧
    deliverSends st ch payload pid = [] := by
  have h1 : handleMessage st ch payload pid = .error msg := by
    cases ch <;> simp [handleMessage, h]
  exact ⟨h1, by simp [deliver, h1], by simp [deliverSends, h1]⟩

/-- Witness for C1 at the concrete unrecognized payload on the `sync2`
channel. -/
theorem c1_decode_error_witness :
    toU8 BinPayload.unrecognized = .error "Unexpected binary type" ∧
    (handleMessage initialState Channel.sync2 BinPayload.unrecognized "p"
        = .error "Unexpected binary type" ∧
      deliver initialState Channel.sync2 BinPayload.unrecognized "p"
        = initialState ∧
      deliverSends initialState Channel.sync2 BinPayload.unrecognized "p"
        = []) :=
  ⟨rfl, c1_decode_error_aborts_and_preserves_state initialState Channel.sync2
    BinPayload.unrecognized "p" "Unexpected binary type" rfl⟩

/-- C2: with peer A holding exactly `{x:"1"}` and newly joined peer B empty,
the handshake in which B (observing A's join) sends its summary via
`sync-request`, A replies with the diff via `sync-response`, and B applies
it, ends with B's `getItem("x")` returning `"1"`: B's join handler sends
exactly its state vector to A, A's `sync1` handler sends exactly the diff
`{x:"1"}` back to B, and delivering that `sync2` to B makes `getItem("x")`
return `"1"`. -/
theorem c2_round_trip_handshake_converges :
    (step handshakePeerB (.peerJoin "A" ["A"])).2
      = [Sent.toPeer Channel.sync1 (encodeStateVector handshakePeerB.doc) "A"] ∧
    deliverSends handshakePeerA Channel.sync1
        (.uint8Array (encodeStateVector handshakePeerB.doc)) "B"
      = [Sent.toPeer Channel.sync2 [("x", .str "1")] "B"] ∧
    getItem
        (deliver handshakePeerB Channel.sync2
          (.uint8Array [("x", .str "1")]) "A")
        (.str "x")
      = some "1" :=
  ⟨rfl, rfl, rfl⟩

/-- C3: starting from an empty map, `setItem("a","1")` dispatches exactly one
change event `{key:"a", oldValue:null, newValue:"1"}`; the subsequent
`setItem("a","2")` dispatches exactly `{key:"a", oldValue:"1", newValue:"2"}`;
the final `removeItem("a")` dispatches exactly
`{key:"a", oldValue:"2", newValue:null}`. -/
theorem c3_change_event_sequence :
    c3AfterSet1.2 = [⟨"a", none, some "1"⟩] ∧
    c3AfterSet2.2 = [⟨"a", some "1", some "2"⟩] ∧
    c3AfterRemove.2 = [⟨"a", some "2", none⟩] :=
  ⟨rfl, rfl, rfl⟩

/-- C5: with the advisory ceiling configured as 1 and the currently known
peer count above 1, the join handler sends nothing (no `sync-request` is
initiated), yet the `sync1` handler still answers any decodable
`sync-request` with the computed diff via `sync-response`. -/
theorem c5_cap_suppresses_initiation_not_response (st : YState)
    (pid : String) (peersNow : List String) (payload : BinPayload) (u : YMap)
    (hmax : st.maxPeers = some 1) (hlen : 1 < peersNow.length)
    (hdec : toU8 payload = .ok u) :
    onPeerJoin st pid peersNow = [] ∧
    handleMessage st Channel.sync1 payload pid
      = .ok (st, [Sent.toPeer Channel.sync2 (encodeStateAsUpdate st.doc u) pid],
          []) := by
  constructor
  · simp [onPeerJoin, truthyNum, hmax, hlen]
  · simp [handleMessage, hdec]

/-- Witness for C5 with two known peers and a decodable empty summary. -/
theorem c5_cap_witness :
    cappedPeer.maxPeers = some 1 ∧
    1 < (["p", "q"] : List String).length ∧
    toU8 (BinPayload.uint8Array []) = .ok [] ∧
    (onPeerJoin cappedPeer "q" ["p", "q"] = [] ∧
      handleMessage cappedPeer Channel.sync1 (BinPayload.uint8Array []) "q"
        = .ok (cappedPeer,
            [Sent.toPeer Channel.sync2 (encodeStateAsUpdate cappedPeer.doc []) "q"],
            [])) :=
  ⟨rfl, by decide, rfl,
    c5_cap_suppresses_initiation_not_response cappedPeer "q" ["p", "q"]
      (BinPayload.uint8Array []) [] rfl (by decide) rfl⟩

/-- C9: with the ceiling configured as 0 (falsy in JS), the gate is disabled:
the join handler sends the `sync-request` on every observed peer join, for
any current peer list. -/
theorem c9_zero_ceiling_disables_gate (st : YState) (pid : String)
    (peersNow : List String) (hmax : st.maxPeers = some 0) :
    onPeerJoin st pid peersNow
      = [Sent.toPeer Channel.sync1 (encodeStateVector st.doc) pid] := by
  simp [onPeerJoin, truthyNum, hmax]

/-- Witness for C9 with three known peers (far above the configured 0). -/
theorem c9_zero_ceiling_witness :
    zeroCapPeer.maxPeers = some 0 ∧
    onPeerJoin zeroCapPeer "p" ["p", "q", "r"]
      = [Sent.toPeer Channel.sync1 (encodeStateVector zeroCapPeer.doc) "p"] :=
  ⟨rfl, c9_zero_ceiling_disables_gate zeroCapPeer "p" ["p", "q", "r"] rfl⟩

/-- C7: a falsy `appId` makes construction throw immediately; with a truthy
`appId`, a falsy `roomId` makes it throw immediately; with both truthy,
construction proceeds (no configuration error) and yields the fresh
instance. An error result is construction not proceeding: no room is joined
and no document state is created. -/
theorem c7_construction_requires_identifiers (cfg : YConfig) :
    (truthyStr cfg.appId = false →
      createYStorage cfg = .error "createYStorage: appId is required") ∧
    (truthyStr cfg.appId = true → truthyStr cfg.roomId = false →
      createYStorage cfg = .error "createYStorage: roomId is required") ∧
    (truthyStr cfg.appId = true → truthyStr cfg.roomId = true →
      createYStorage cfg
        = .ok { doc := [], snap := snapshot [],
                maxPeers := cfg.maxPeers, destroyed := false }) := by
  refine ⟨fun h1 => ?_, fun h1 h2 => ?_, fun h1 h2 => ?_⟩ <;>
    simp [createYStorage, h1]
  · simp [h2]
  · simp [h2]

/-- Witness for C7 at the three concrete configurations. -/
theorem c7_construction_witness :
    createYStorage cfgMissingAppId
      = .error "createYStorage: appId is required" ∧
    createYStorage cfgMissingRoomId
      = .error "createYStorage: roomId is required" ∧
    createYStorage cfgComplete
      = .ok { doc := [], snap := snapshot [],
              maxPeers := none, destroyed := false } :=
  ⟨(c7_construction_requires_identifiers cfgMissingAppId).1 rfl,
    (c7_construction_requires_identifiers cfgMissingRoomId).2.1 rfl rfl,
    (c7_construction_requires_identifiers cfgComplete).2.2 rfl rfl⟩

/-- C4: in every controller step, a message goes out on the `sync2`
(sync-response) channel only while handling a received `sync1`
(sync-request) message, and a message goes out on the `sync1` channel only
while handling an observed peer join; no other event produces either. -/
theorem c4_sync_sends_only_from_their_triggers (st : YState) (ev : PEvent)
    (s : Sent) (hs : s ∈ (step st ev).2) :
    (s.channel = Channel.sync2 →
      ∃ payload pid, ev = PEvent.message Channel.sync1 payload pid) ∧
    (s.channel = Channel.sync1 →
      ∃ pid peersNow, ev = PEvent.peerJoin pid peersNow) := by
  cases ev with
  | peerJoin pid peersNow =>
    simp only [step] at hs
    unfold onPeerJoin at hs
    split at hs
    · simp at hs
    · simp at hs
      subst hs
      exact ⟨fun hch => by simp [Sent.channel] at hch,
        fun _ => ⟨pid, peersNow, rfl⟩⟩
  | message ch payload pid =>
    simp only [step, deliverSends] at hs
    cases ch with
    | sync1 =>
      cases htu : toU8 payload with
      | error e => simp [handleMessage, htu] at hs
      | ok sv =>
        simp [handleMessage, htu] at hs
        subst hs
        exact ⟨fun _ => ⟨payload, pid, rfl⟩,
          fun hch => by simp [Sent.channel] at hch⟩
    | sync2 =>
      cases htu : toU8 payload with
      | error e => simp [handleMessage, htu] at hs
      | ok u =>
        simp [handleMessage, htu, applyIncoming] at hs
        obtain ⟨-, hs⟩ := hs
        subst hs
        exact ⟨fun hch => by simp [Sent.channel] at hch,
          fun hch => by simp [Sent.channel] at hch⟩
    | upd =>
      cases htu : toU8 payload with
      | error e => simp [handleMessage, htu] at hs
      | ok u =>
        simp [handleMessage, htu, applyIncoming] at hs
        obtain ⟨-, hs⟩ := hs
        subst hs
        exact ⟨fun hch => by simp [Sent.channel] at hch,
          fun hch => by simp [Sent.channel] at hch⟩
  | localSetItem k v =>
    simp only [step] at hs
    split at hs
    · simp at hs
    · simp at hs
      subst hs
      exact ⟨fun hch => by simp [Sent.channel] at hch,
        fun hch => by simp [Sent.channel] at hch⟩
  | localRemoveItem k =>
    simp only [step] at hs
    split at hs
    · simp at hs
    · simp at hs
      subst hs
      exact ⟨fun hch => by simp [Sent.channel] at hch,
        fun hch => by simp [Sent.channel] at hch⟩

/-- Witness for C4 at a concrete peer-join step of a fresh instance. -/
theorem c4_sync_sends_witness :
    Sent.toPeer Channel.sync1 (encodeStateVector initialState.doc) "p"
        ∈ (step initialState (PEvent.peerJoin "p" ["p"])).2 ∧
    (((Sent.toPeer Channel.sync1 (encodeStateVector initialState.doc)
          "p").channel = Channel.sync2 →
        ∃ payload pid,
          PEvent.peerJoin "p" ["p"] = PEvent.message Channel.sync1 payload pid) ∧
      ((Sent.toPeer Channel.sync1 (encodeStateVector initialState.doc)
          "p").channel = Channel.sync1 →
        ∃ pid peersNow,
          PEvent.peerJoin "p" ["p"] = PEvent.peerJoin pid peersNow)) :=
  ⟨by decide,
    c4_sync_sends_only_from_their_triggers initialState
      (PEvent.peerJoin "p" ["p"])
      (Sent.toPeer Channel.sync1 (encodeStateVector initialState.doc) "p")
      (by decide)⟩

/-- C8: `destroy()` run twice in succession raises no error — the chained
result is a plain success, whatever the two external teardown calls return —
and a destroyed instance is inert: no facade mutation dispatches any change
event to listeners (and the detached `update` hook broadcasts nothing). -/
theorem c8_destroy_idempotent_and_inert (st : YState)
    (r1 r2 r3 r4 : Except String Unit) :
    (destroy r1 r2 st).bind (destroy r3 r4)
      = .ok { st with destroyed := true } ∧
    (∀ (st2 : YState) (k v : JSVal), st2.destroyed = true →
      (setItem st2 k v).2 = [] ∧ (removeItem st2 k).2 = [] ∧
      (clear st2).2 = [] ∧ (step st2 (PEvent.localSetItem k v)).2 = []) := by
  constructor
  · simp [destroy, Except.bind]
  · intro st2 k v hd
    refine ⟨?_, ?_, ?_, ?_⟩ <;>
      simp [setItem, removeItem, clear, step, fireObserver, hd]

/-- Witness for C8: double destroy of a fresh instance succeeds, and the
concrete destroyed instance dispatches no events on `setItem`. -/
theorem c8_destroy_witness :
    (destroy (Except.ok ()) (Except.error "teardown failed") initialState).bind
        (destroy (Except.ok ()) (Except.ok ()))
      = .ok { initialState with destroyed := true } ∧
    ((setItem destroyedPeer (.str "a") (.str "2")).2 = [] ∧
      (removeItem destroyedPeer (.str "a")).2 = [] ∧
      (clear destroyedPeer).2 = [] ∧
      (step destroyedPeer
        (PEvent.localSetItem (.str "a") (.str "2"))).2 = []) :=
  ⟨(c8_destroy_idempotent_and_inert initialState (Except.ok ())
      (Except.error "teardown failed") (Except.ok ()) (Except.ok ())).1,
    (c8_destroy_idempotent_and_inert initialState (Except.ok ())
      (Except.error "teardown failed") (Except.ok ()) (Except.ok ())).2
      destroyedPeer (.str "a") (.str "2") rfl⟩

/-! ### Lemmas about the map operations and facade traces -/

theorem fireObserver_doc (st : YState) : (fireObserver st).1.doc = st.doc := by
  unfold fireObserver
  split <;> rfl

theorem mapGet_cons (k1 : String) (v1 : JSVal) (tl : YMap) (k : String) :
    mapGet ((k1, v1) :: tl) k = if k1 = k then some v1 else mapGet tl k := by
  by_cases h : k1 = k
  · rw [if_pos h]
    unfold mapGet
    rw [List.find?_cons_of_pos _ (by simp [h])]
    rfl
  · rw [if_neg h]
    unfold mapGet
    rw [List.find?_cons_of_neg _ (by simp [h])]

theorem mapSet_cons (k1 : String) (v1 : JSVal) (tl : YMap) (k : String)
    (v : JSVal) :
    mapSet ((k1, v1) :: tl) k v
      = if k1 = k then (k, v) :: tl else (k1, v1) :: mapSet tl k v := by
  by_cases h : k1 = k <;> simp [mapSet, h]

theorem mapDelete_cons (k1 : String) (v1 : JSVal) (tl : YMap) (k : String) :
    mapDelete ((k1, v1) :: tl) k
      = if k1 = k then tl else (k1, v1) :: mapDelete tl k := by
  by_cases h : k1 = k <;> simp [mapDelete, h]

theorem mapGet_mapSet_self (m : YMap) (k : String) (v : JSVal) :
    mapGet (mapSet m k v) k = some v := by
  induction m with
  | nil => simp [mapSet, mapGet_cons]
  | cons hd tl ih =>
    obtain ⟨k1, v1⟩ := hd
    rw [mapSet_cons]
    by_cases h : k1 = k
    · rw [if_pos h, mapGet_cons, if_pos rfl]
    · rw [if_neg h, mapGet_cons, if_neg h]
      exact ih

theorem mapGet_mapSet_ne (m : YMap) (k kw : String) (v : JSVal)
    (h : kw ≠ k) : mapGet (mapSet m kw v) k = mapGet m k := by
  induction m with
  | nil => simp [mapSet, mapGet_cons, mapGet, h]
  | cons hd tl ih =>
    obtain ⟨k1, v1⟩ := hd
    rw [mapSet_cons]
    by_cases h1 : k1 = kw
    · rw [if_pos h1, mapGet_cons, if_neg h, mapGet_cons, if_neg (h1 ▸ h)]
    · rw [if_neg h1, mapGet_cons, mapGet_cons]
      by_cases h2 : k1 = k
      · rw [if_pos h2, if_pos h2]
      · rw [if_neg h2, if_neg h2]
        exact ih

theorem mapGet_mapDelete_ne (m : YMap) (k kw : String) (h : kw ≠ k) :
    mapGet (mapDelete m kw) k = mapGet m k := by
  induction m with
  | nil => rfl
  | cons hd tl ih =>
    obtain ⟨k1, v1⟩ := hd
    rw [mapDelete_cons]
    by_cases h1 : k1 = kw
    · rw [if_pos h1, mapGet_cons, if_neg (h1 ▸ h)]
    · rw [if_neg h1, mapGet_cons, mapGet_cons]
      by_cases h2 : k1 = k
      · rw [if_pos h2, if_pos h2]
      · rw [if_neg h2, if_neg h2]
        exact ih

theorem mapGet_eq_none_of_not_mem (m : YMap) (k : String)
    (h : k ∉ m.map Prod.fst) : mapGet m k = none := by
  induction m with
  | nil => rfl
  | cons hd tl ih =>
    obtain ⟨k1, v1⟩ := hd
    simp only [List.map_cons, List.mem_cons, not_or] at h
    rw [mapGet_cons, if_neg (fun he => h.1 he.symm)]
    exact ih h.2

theorem mapGet_mapDelete_self (m : YMap) (k : String) (h : keysNodup m) :
    mapGet (mapDelete m k) k = none := by
  induction m with
  | nil => rfl
  | cons hd tl ih =>
    obtain ⟨k1, v1⟩ := hd
    unfold keysNodup at h
    simp only [List.map_cons, List.nodup_cons] at h
    rw [mapDelete_cons]
    by_cases h1 : k1 = k
    · rw [if_pos h1]
      exact mapGet_eq_none_of_not_mem tl k (h1 ▸ h.1)
    · rw [if_neg h1, mapGet_cons, if_neg h1]
      exact ih h.2

theorem mem_keys_mapSet (m : YMap) (k : String) (v : JSVal) (a : String) :
    a ∈ (mapSet m k v).map Prod.fst ↔ a = k ∨ a ∈ m.map Prod.fst := by
  induction m with
  | nil => simp [mapSet]
  | cons hd tl ih =>
    obtain ⟨k1, v1⟩ := hd
    rw [mapSet_cons]
    by_cases h : k1 = k
    · subst h
      simp
    · rw [if_neg h]
      simp only [List.map_cons, List.mem_cons, ih]
      tauto

theorem mem_keys_mapDelete (m : YMap) (k a : String)
    (h : a ∈ (mapDelete m k).map Prod.fst) : a ∈ m.map Prod.fst := by
  induction m with
  | nil => exact h
  | cons hd tl ih =>
    obtain ⟨k1, v1⟩ := hd
    rw [mapDelete_cons] at h
    by_cases h1 : k1 = k
    · rw [if_pos h1] at h
      simp only [List.map_cons, List.mem_cons]
      exact Or.inr h
    · rw [if_neg h1] at h
      simp only [List.map_cons, List.mem_cons] at h ⊢
      exact h.imp id ih

theorem keysNodup_mapSet (m : YMap) (k : String) (v : JSVal)
    (h : keysNodup m) : keysNodup (mapSet m k v) := by
  induction m with
  | nil => simp [mapSet, keysNodup]
  | cons hd tl ih =>
    obtain ⟨k1, v1⟩ := hd
    unfold keysNodup at h ⊢
    simp only [List.map_cons, List.nodup_cons] at h
    rw [mapSet_cons]
    by_cases h1 : k1 = k
    · subst h1
      rw [if_pos rfl]
      simp only [List.map_cons, List.nodup_cons]
      exact h
    · rw [if_neg h1]
      simp only [List.map_cons, List.nodup_cons]
      refine ⟨fun hmem => ?_, ih h.2⟩
      rcases (mem_keys_mapSet tl k v k1).mp hmem with he | hmem2
      · exact h1 he
      · exact h.1 hmem2

theorem keysNodup_mapDelete (m : YMap) (k : String)
    (h : keysNodup m) : keysNodup (mapDelete m k) := by
  induction m with
  | nil => exact h
  | cons hd tl ih =>
    obtain ⟨k1, v1⟩ := hd
    unfold keysNodup at h ⊢
    simp only [List.map_cons, List.nodup_cons] at h
    rw [mapDelete_cons]
    by_cases h1 : k1 = k
    · rw [if_pos h1]
      exact h.2
    · rw [if_neg h1]
      simp only [List.map_cons, List.nodup_cons]
      exact ⟨fun hmem => h.1 (mem_keys_mapDelete tl k k1 hmem), ih h.2⟩

theorem stepOp_set_doc (st : YState) (k v : JSVal) :
    (stepOp st (.set k v)).doc = mapSet st.doc k.toStr (.str v.toStr) := by
  simp [stepOp, setItem, fireObserver_doc]

theorem stepOp_remove_doc (st : YState) (k : JSVal) :
    (stepOp st (.remove k)).doc = mapDelete st.doc k.toStr := by
  simp [stepOp, removeItem, fireObserver_doc]

theorem stepOp_clear_doc (st : YState) :
    (stepOp st .clearOp).doc = [] := by
  simp [stepOp, clear, mapClear, fireObserver_doc]

theorem keysNodup_stepOp (st : YState) (op : SOp) (h : keysNodup st.doc) :
    keysNodup (stepOp st op).doc := by
  cases op with
  | set k v => rw [stepOp_set_doc]; exact keysNodup_mapSet _ _ _ h
  | remove k => rw [stepOp_remove_doc]; exact keysNodup_mapDelete _ _ h
  | clearOp => rw [stepOp_clear_doc]; exact List.nodup_nil

theorem mapGet_runFrom (ops : List SOp) (st : YState) (k : String)
    (h : keysNodup st.doc) :
    mapGet (runFrom st ops).doc k
      = lastWriteVal (lastWrite ops k) (mapGet st.doc k) := by
  induction ops generalizing st with
  | nil => rfl
  | cons op ops ih =>
    have hrun : runFrom st (op :: ops) = runFrom (stepOp st op) ops := rfl
    rw [hrun, ih (stepOp st op) (keysNodup_stepOp st op h)]
    cases hlw : lastWrite ops k with
    | some r =>
      simp only [lastWrite, hlw]
      cases r <;> rfl
    | none =>
      cases op with
      | set kv v =>
        simp only [lastWrite, hlw, stepOp_set_doc]
        by_cases hk : kv.toStr = k
        · rw [hk, mapGet_mapSet_self]
          simp [lastWriteVal]
        · rw [mapGet_mapSet_ne _ _ _ _ hk]
          simp [lastWriteVal, hk]
      | remove kv =>
        simp only [lastWrite, hlw, stepOp_remove_doc]
        by_cases hk : kv.toStr = k
        · rw [hk, mapGet_mapDelete_self _ _ h]
          simp [lastWriteVal]
        · rw [mapGet_mapDelete_ne _ _ _ hk]
          simp [lastWriteVal, hk]
      | clearOp =>
        simp only [lastWrite, hlw, stepOp_clear_doc]
        simp [lastWriteVal, mapGet]

/-- C6: immediately after `setItem(k, v)`, `getItem(k)` returns `String(v)`
(both key and value string-coerced); and over any sequence of facade
mutations on a fresh instance, a key the sequence never set (second
conjunct: no mutation touches it) or whose last touching mutation removed or
cleared it (third conjunct) reads back as null. -/
theorem c6_getItem_reflects_last_write :
    (∀ (st : YState) (k v : JSVal),
      getItem (setItem st k v).1 k = some (JSVal.toStr v)) ∧
    (∀ (ops : List SOp) (k : JSVal), lastWrite ops k.toStr = none →
      getItem (runOps ops) k = none) ∧
    (∀ (ops : List SOp) (k : JSVal), lastWrite ops k.toStr = some none →
      getItem (runOps ops) k = none) := by
  have hbase : keysNodup initialState.doc := List.nodup_nil
  refine ⟨fun st k v => ?_, fun ops k hlw => ?_, fun ops k hlw => ?_⟩
  · unfold getItem
    have hdoc : (setItem st k v).1.doc
        = mapSet st.doc k.toStr (.str v.toStr) := by
      simp [setItem, fireObserver_doc]
    rw [hdoc, mapGet_mapSet_self]
    rfl
  · unfold getItem runOps
    rw [mapGet_runFrom _ _ _ hbase, hlw]
    rfl
  · unfold getItem runOps
    rw [mapGet_runFrom _ _ _ hbase, hlw]
    rfl

/-- Witness for C6: a numeric value reads back string-coerced right after
`setItem`; a never-touched key and a last-removed key read back null. -/
theorem c6_getItem_witness :
    getItem (setItem initialState (.str "a") (.num 7)).1 (.str "a")
      = some "7" ∧
    lastWrite [SOp.set (.str "a") (.num 7)] (JSVal.toStr (.str "b")) = none ∧
    getItem (runOps [SOp.set (.str "a") (.num 7)]) (.str "b") = none ∧
    lastWrite [SOp.set (.str "a") (.num 7), SOp.remove (.str "a")]
        (JSVal.toStr (.str "a")) = some none ∧
    getItem (runOps [SOp.set (.str "a") (.num 7), SOp.remove (.str "a")])
        (.str "a") = none :=
  ⟨c6_getItem_reflects_last_write.1 initialState (.str "a") (.num 7),
    by decide,
    c6_getItem_reflects_last_write.2.1 [SOp.set (.str "a") (.num 7)]
      (.str "b") (by decide),
    by decide,
    c6_getItem_reflects_last_write.2.2
      [SOp.set (.str "a") (.num 7), SOp.remove (.str "a")] (.str "a")
      (by decide)⟩

theorem observeEvents_old_ne_new (snap next : Snap) (e : ChangeEvent)
    (he : e ∈ observeEvents snap next) : e.oldValue ≠ e.newValue := by
  unfold observeEvents at he
  rcases List.mem_append.mp he with h | h
  · unfold addedChangedEvents at h
    rw [List.mem_filterMap] at h
    obtain ⟨p, _, hf⟩ := h
    by_cases hc : oldValueFor snap p.1 = some p.2
    · rw [if_pos hc] at hf
      cases hf
    · rw [if_neg hc] at hf
      injection hf with hf
      subst hf
      exact hc
  · unfold removedEvents at h
    rw [List.mem_filterMap] at h
    obtain ⟨p, _, hf⟩ := h
    by_cases hc : snapHas next p.1
    · rw [if_pos hc] at hf
      cases hf
    · rw [if_neg hc] at hf
      injection hf with hf
      subst hf
      simp

/-- C10: every change event the observer callback ever dispatches has
`oldValue` and `newValue` each null or a string (they are `Option String`
values over the string-coerced snapshots), and `oldValue` is never equal to
`newValue`: the added/changed loop dispatches only when the compared values
differ, and the removed loop pairs a stored string with null. -/
theorem c10_dispatched_events_distinct_values (st : YState) (e : ChangeEvent)
    (he : e ∈ (fireObserver st).2) :
    (e.oldValue = none ∨ ∃ s, e.oldValue = some s) ∧
    (e.newValue = none ∨ ∃ s, e.newValue = some s) ∧
    e.oldValue ≠ e.newValue := by
  have hobs : e ∈ observeEvents st.snap (snapshot st.doc) := by
    unfold fireObserver at he
    split at he
    · simp at he
    · exact he
  refine ⟨?_, ?_, observeEvents_old_ne_new _ _ _ hobs⟩
  · cases h : e.oldValue with
    | none => exact Or.inl rfl
    | some s => exact Or.inr ⟨s, rfl⟩
  · cases h : e.newValue with
    | none => exact Or.inl rfl
    | some s => exact Or.inr ⟨s, rfl⟩

/-- Witness for C10 at a concrete dispatched event: the instance whose map
gained key `a` since its retained snapshot dispatches `{a, null, "1"}`. -/
theorem c10_dispatched_events_witness :
    (⟨"a", none, some "1"⟩ : ChangeEvent) ∈ (fireObserver pendingAddPeer).2 ∧
    (((⟨"a", none, some "1"⟩ : ChangeEvent).oldValue = none ∨
        ∃ s, (⟨"a", none, some "1"⟩ : ChangeEvent).oldValue = some s) ∧
      ((⟨"a", none, some "1"⟩ : ChangeEvent).newValue = none ∨
        ∃ s, (⟨"a", none, some "1"⟩ : ChangeEvent).newValue = some s) ∧
      (⟨"a", none, some "1"⟩ : ChangeEvent).oldValue
        ≠ (⟨"a", none, some "1"⟩ : ChangeEvent).newValue) :=
  ⟨by decide,
    c10_dispatched_events_distinct_values pendingAddPeer
      ⟨"a", none, some "1"⟩ (by decide)⟩

end YStorage
